import Mathlib

/-!
Shallow embedding of the FairTest investigation pipeline
(src/fairtest/investigation.py) together with proofs about the claims of
its specification.

Conventions used throughout:
* Python dictionaries are modelled as association lists `List (String × α)`
  with `alookup` (dictionary read, first matching key) and `aset`
  (dictionary write, replacing in place or appending at the end, which is
  exactly the insertion-order behaviour of Python dicts).
* Python exceptions are modelled by the `Err` type; a function that can
  raise returns `Except Err α`, or a tuple whose first component is
  `Option Err` when, as in Python, the mutations performed before the
  exception are still visible to the caller.
* Pandas data frames are modelled by `DTable` (column names plus a row
  count); only the operations the investigation module uses (column
  membership, dropping a column, the row count) are represented.
* The global `random` and `np.random` generators are modelled as explicit
  `Nat` states threaded through the functions that use them; `random.seed`
  and `np.random.seed` replace the state by a value computed from the seed
  alone.
* Modules of this repository that are not part of the provided sources
  (guided_tree, tree_parser, multiple_testing, holdout, filter_rank,
  bug_report) are modelled from the specification; each such definition
  carries a doc comment starting with `Modelled from the spec:`.
-/

set_option autoImplicit false

namespace FairTest

/-- Python exceptions raised by the investigation module. -/
inductive Err where
  | valueError (msg : String)
  | runtimeError (msg : String)
  | keyError (msg : String)
  | ioError (msg : String)
  | indexError
deriving DecidableEq, Repr

/-- The fairness metrics of `fairtest.modules.metrics`.  The module itself is
not part of the analysed sources; only the constructors that
`metric_from_string` produces are represented, as opaque tags.  The
`REGRESSION` metric stores the `topk` argument it is constructed with. -/
inductive Metric where
  | NMI
  | CORR
  | DIFF
  | RatioM
  | REGRESSION (topk : Nat)
  | CondDIFF
  | CondNMI
  | CondCORR
deriving DecidableEq, Repr

/-- Embedding of `metric_from_string` (investigation.py lines 475-503).
The keyword arguments are represented by the optional `topk` value; the
source reads `kwargs['topk']` for the `REGRESSION` metric, which raises a
`KeyError` when the argument was not supplied. -/
def metric_from_string (m_str : String) (topk : Option Nat) : Except Err Metric :=
  if m_str = "NMI" ∨ m_str = "MI" then .ok .NMI
  else if m_str = "CORR" then .ok .CORR
  else if m_str = "DIFF" then .ok .DIFF
  else if m_str = "RATIO" then .ok .RatioM
  else if m_str = "REGRESSION" then
    match topk with
    | some k => .ok (.REGRESSION k)
    | none => .error (.keyError "topk")
  else if m_str = "CondDIFF" then .ok .CondDIFF
  else if m_str = "CondNMI" then .ok .CondNMI
  else if m_str = "CondCorr" then .ok .CondCORR
  else .error (.valueError ("Unknown fairness Metric " ++ m_str))

/-- Dictionary read: value of the first entry with the given key. -/
def alookup {α : Type} : List (String × α) → String → Option α
  | [], _ => none
  | (k', v) :: rest, k => if k' = k then some v else alookup rest k

/-- Dictionary write: replace the first entry with the given key in place,
or append a new entry at the end (Python dict assignment keeps insertion
order). -/
def aset {α : Type} : List (String × α) → String → α → List (String × α)
  | [], k, v => [(k, v)]
  | (k', v') :: rest, k, v =>
    if k' = k then (k, v) :: rest else (k', v') :: aset rest k v

theorem alookup_aset_self {α : Type} (l : List (String × α)) (k : String) (v : α) :
    alookup (aset l k v) k = some v := by
  induction l with
  | nil => simp [aset, alookup]
  | cons p rest ih =>
    by_cases h : p.1 = k
    · simp [aset, alookup, h]
    · simp [aset, alookup, h, ih]

theorem alookup_aset_ne {α : Type} (l : List (String × α)) (k k' : String) (v : α)
    (h : k ≠ k') : alookup (aset l k v) k' = alookup l k' := by
  induction l with
  | nil => simp [aset, alookup, h]
  | cons p rest ih =>
    by_cases hp : p.1 = k
    · simp [aset, alookup, hp, h]
    · simp [aset, alookup, hp, ih]

/-- Looking up a key that is none of the keys written by a fold of `aset`
over a list of keys reads through to the original dictionary. -/
theorem alookup_foldl_aset_not_mem {α : Type} (f : String → α) (l : List String)
    (t0 : List (String × α)) (s : String) (h : s ∉ l) :
    alookup (l.foldl (fun acc k => aset acc k (f k)) t0) s = alookup t0 s := by
  induction l generalizing t0 with
  | nil => simp
  | cons k rest ih =>
    have hk : s ≠ k := fun he => h (he ▸ List.mem_cons_self k rest)
    have hrest : s ∉ rest := fun hm => h (List.mem_cons_of_mem _ hm)
    simp only [List.foldl_cons]
    rw [ih _ hrest, alookup_aset_ne _ _ _ _ (fun he => hk he.symm)]

/-- Looking up a key written by a fold of `aset` over a list of keys, where
the value written for a key depends only on the key, returns that value. -/
theorem alookup_foldl_aset_mem {α : Type} (f : String → α) (l : List String)
    (t0 : List (String × α)) (s : String) (h : s ∈ l) :
    alookup (l.foldl (fun acc k => aset acc k (f k)) t0) s = some (f s) := by
  induction l generalizing t0 with
  | nil => cases h
  | cons k rest ih =>
    by_cases hr : s ∈ rest
    · simp only [List.foldl_cons]
      exact ih _ hr
    · have hk : s = k := by
        rcases List.mem_cons.mp h with h1 | h2
        · exact h1
        · exact absurd h2 hr
      subst hk
      simp only [List.foldl_cons]
      rw [alookup_foldl_aset_not_mem _ _ _ _ hr, alookup_aset_self]

/-- A pandas data frame as used by the investigation module: its column
names (in order) and its row count (`len(df)` in the source). -/
structure DTable where
  cols : List String
  nrows : Nat
deriving DecidableEq, Repr

/-- `df.drop(col, axis=1)`: removes the column, raising a `KeyError` when
the column is absent (pandas' default behaviour). -/
def dropCol (t : DTable) (c : String) : Except Err DTable :=
  if c ∈ t.cols then .ok { cols := t.cols.erase c, nrows := t.nrows }
  else .error (.keyError c)

/-- The sequential `for col in to_drop: train_set = train_set.drop(col)`
loop of `Investigation.__init__`. -/
def dropCols : DTable → List String → Except Err DTable
  | t, [] => .ok t
  | t, c :: rest =>
    match dropCol t c with
    | .error e => .error e
    | .ok t' => dropCols t' rest

/-- Modelled from the spec: the holdout object of `fairtest.holdout` (not
among the provided sources).  Multiple investigations may share one holdout
instance; `hid` is an identity tag so that record equality models Python
object identity, and `test_set_conf` is the shared family-confidence
configuration value read by `train` and `test`.  The mutable pool of
unused test data is threaded separately (see `get_test_set`). -/
structure HoldoutRef where
  hid : Nat
  test_set_conf : Rat
deriving DecidableEq, Repr

/-- Modelled from the spec: `holdout.get_test_set()` hands the unused test
data out to the caller, checking it out of the holdout. -/
def get_test_set (pool : List Int) : List Int × List Int :=
  (pool, [])

/-- Modelled from the spec: `holdout.return_unused_data(data)` returns
checked-out test data to the holdout's unused pool. -/
def return_unused_data (pool : List Int) (data : List Int) : List Int :=
  pool ++ data

/-- Embedding of the `Feature` class (investigation.py lines 440-455). -/
structure Feature where
  ftype : String
  arity : Option Nat
deriving DecidableEq, Repr

/-- The `Feature.TYPES` list of recognized feature roles. -/
def Feature.TYPES : List String := ["context", "sens", "expl"]

/-- Embedding of the `Target` class (investigation.py lines 458-472); the
`short_names` display string is not represented. -/
structure Target where
  names : List String
  num_labels : Nat
  arity : Option Nat
deriving DecidableEq, Repr

/-- The `train_params` record written by `train`. -/
structure TrainParams where
  max_depth : Int
  min_leaf_size : Int
  agg_type : String
  max_bins : Int
deriving DecidableEq, Repr

/-- The `test_params` record written by `test`. -/
structure TestParams where
  prune_insignificant : Bool
  exact : Bool
  family_conf : Rat
deriving DecidableEq, Repr

/-- The `display_params` record written by `report`. -/
structure DisplayParams where
  node_filter : String
deriving DecidableEq, Repr

/-- Modelled from the spec: a successor function standing in for the state
transition of the external pseudo-random generators (`random` /
`np.random`); drawing once advances the state. -/
def rngNext (s : Nat) : Nat :=
  (s * 1103515245 + 12345) % (2 ^ 31)

/-- Modelled from the spec: `random.seed(seed)` replaces the state of the
python generator by a value determined by the seed alone. -/
def pySeed (seed : Nat) : Nat :=
  (seed + 5) % (2 ^ 31)

/-- Modelled from the spec: `np.random.seed(seed)` replaces the state of
numpy's generator by a value determined by the seed alone. -/
def npSeed (seed : Nat) : Nat :=
  (seed + 17) % (2 ^ 31)

/-- Modelled from the spec: the tree returned by `guided_tree.build_tree`
(module not among the provided sources).  The tree is a deterministic
record of the inputs that produced it; `sampleSeed` records the generator
state used for the one seeded subsample drawn when `subsample_frac < 1`. -/
structure Tree where
  cols : List String
  nrows : Nat
  features : List (String × Feature)
  sens : String
  expl : Option String
  outNames : List String
  metric : Metric
  conf : Rat
  max_depth : Int
  min_leaf_size : Int
  agg : String
  max_bins : Int
  sampleSeed : Option Nat
deriving DecidableEq, Repr

/-- Modelled from the spec: `guided_tree.build_tree`.  A deterministic
function of its arguments; when `subsample_frac < 1` it draws one seeded
random subsample before building, advancing the python generator. -/
def build_tree (data : DTable) (fi : List (String × Feature)) (sens : String)
    (expl : Option String) (output : Target) (metric : Metric) (conf : Rat)
    (max_depth min_leaf_size : Int) (agg : String) (max_bins : Int)
    (subsample_frac : Rat) (rng : Nat) : Tree × Nat :=
  if subsample_frac < 1 then
    ({ cols := data.cols, nrows := data.nrows, features := fi, sens := sens,
       expl := expl, outNames := output.names, metric := metric, conf := conf,
       max_depth := max_depth, min_leaf_size := min_leaf_size, agg := agg,
       max_bins := max_bins, sampleSeed := some rng }, rngNext rng)
  else
    ({ cols := data.cols, nrows := data.nrows, features := fi, sens := sens,
       expl := expl, outNames := output.names, metric := metric, conf := conf,
       max_depth := max_depth, min_leaf_size := min_leaf_size, agg := agg,
       max_bins := max_bins, sampleSeed := none }, rng)

/-- Modelled from the spec: the collection of contexts extracted by
`tree_parser.find_contexts` (module not among the provided sources).  A
deterministic record of the extraction inputs. -/
structure ContextSet where
  tree : Tree
  data : List Int
  features : List (String × Feature)
  sens : String
  expl : Option String
  outNames : List String
  prune : Bool
  newMetric : Option Metric
deriving DecidableEq, Repr

/-- Modelled from the spec: `tree_parser.find_contexts`, walking the tree
against the held-out data; emission is deterministic. -/
def find_contexts (tree : Tree) (data : List Int) (fi : List (String × Feature))
    (sens : String) (expl : Option String) (output : Target) (prune : Bool)
    (newMetric : Option Metric) : ContextSet :=
  { tree := tree, data := data, features := fi, sens := sens, expl := expl,
    outNames := output.names, prune := prune, newMetric := newMetric }

/-- Modelled from the spec: the per-context statistic record produced by
the statistical validator (effect size, interval, p-values); represented
as a deterministic record of the inputs it is computed from, including the
numpy generator state consumed by the resampling. -/
structure StatRecord where
  ctxs : ContextSet
  exact : Bool
  conf : Rat
  correct : Bool
  seed : Nat
deriving DecidableEq, Repr

/-- Modelled from the spec: the validator's per-investigation resampling
loop, consuming the numpy generator once per protected feature's context
collection. -/
def statsForContexts : List (String × ContextSet) → Bool → Rat → Bool → Nat →
    List (String × StatRecord) × Nat
  | [], _, _, _, rng => ([], rng)
  | (s, c) :: rest, exact, conf, correct, rng =>
    let r := statsForContexts rest exact conf correct (rngNext rng)
    ((s, { ctxs := c, exact := exact, conf := conf, correct := correct,
           seed := rng }) :: r.1, r.2)

/-- The `new_metrics` entries accepted by `test`: either a string (then
converted with `metric_from_string`) or an already-constructed metric. -/
inductive NewMetricArg where
  | str (s : String)
  | metric (m : Metric)
deriving DecidableEq, Repr

/-- Embedding of the `Investigation` object's state (investigation.py
lines 68-134). -/
structure Investigation where
  encoders : List (String × Nat)
  holdout : HoldoutRef
  metrics : List (String × Metric)
  trained_trees : List (String × Tree)
  contexts : List (String × ContextSet)
  stats : List (String × StatRecord)
  train_params : Option TrainParams
  test_params : Option TestParams
  display_params : Option DisplayParams
  feature_info : List (String × Feature)
  test_set_size : Nat
  random_state : Nat
  train_set : DTable
  sens_features : List String
  expl : Option String
  output : Target
deriving DecidableEq, Repr

/-- Modelled from the spec: the validator `multiple_testing.compute_all_stats`
(module not among the provided sources).  Writes one statistic record per
extracted context of every investigation, threading the numpy generator
through the resampling loops. -/
def compute_all_stats : List Investigation → Bool → Rat → Bool → Nat →
    List Investigation × Nat
  | [], _, _, _, rng => ([], rng)
  | inv :: rest, exact, conf, correct, rng =>
    let r := statsForContexts inv.contexts exact conf correct rng
    let rr := compute_all_stats rest exact conf correct r.2
    ({ inv with stats := r.1 } :: rr.1, rr.2)

/-- The data source handed to `Investigation.__init__`: a training table,
the shared holdout, and the optional per-column categorical encoders
(modelled by their class counts). -/
structure DataSource where
  train_data : DTable
  holdout : HoldoutRef
  encoders : Option (List (String × Nat))
deriving DecidableEq, Repr

/-- The `for sens in protected: if sens not in columns: raise` loop of
`Investigation.__init__` (lines 98-100). -/
def checkFeatures : List String → List String → Option Err
  | [], _ => none
  | s :: rest, cols =>
    if s ∈ cols then checkFeatures rest cols
    else some (.valueError ("Feature " ++ s ++ " not found"))

/-- The `for target in output: if target not in columns: raise` loop of
`Investigation.__init__` (lines 102-104). -/
def checkTargets : List String → List String → Option Err
  | [], _ => none
  | t :: rest, cols =>
    if t ∈ cols then checkTargets rest cols
    else some (.valueError ("Target " ++ t ++ " not found"))

/-- The feature-role assignment of `Investigation.__init__` (lines
106-114): protected wins over explanatory wins over contextual, and the
arity is read from the encoders. -/
def mkFeatureFor (c : String) (protected_ expl : List String)
    (encoders : List (String × Nat)) : Feature :=
  { ftype := if c ∈ protected_ then "sens"
             else if c ∈ expl then "expl"
             else "context",
    arity := alookup encoders c }

/-- Embedding of `Investigation.__init__` (investigation.py lines 29-134).
The `protected`, `output` and `expl` arguments are modelled as lists of
names; `data_source` is typed, so the `isinstance` checks cannot fail.
The default metrics of the abstract `set_default_metrics` hook are
modelled from the spec (each protected feature without a user-supplied
metric receives a default one).  The call `random.seed(random_state)`
that `__init__` performs is modelled at the pipeline level (see
`pipeline`). -/
def investigation_init (data_source : DataSource) (protected_ : List String)
    (output : List String) (expl : List String)
    (metrics : Option (List (String × Metric))) (random_state : Option Nat)
    (to_drop : Option (List String)) : Except Err Investigation :=
  if protected_ = [] then
    .error (.valueError "at least one protected feature must be specified")
  else if output = [] then
    .error (.valueError "at least one output feature must be specified")
  else
    match dropCols data_source.train_data (to_drop.getD []) with
    | .error e => .error e
    | .ok tset =>
      match checkFeatures protected_ tset.cols with
      | some e => .error e
      | none =>
        match checkTargets output tset.cols with
        | some e => .error e
        | none =>
          let encoders := data_source.encoders.getD []
          let fi := (tset.cols.filter (fun c => decide (c ∉ output))).foldl
            (fun acc c => aset acc c (mkFeatureFor c protected_ expl encoders)) []
          let sensf := fi.filterMap
            (fun p => if p.2.ftype = "sens" then some p.1 else none)
          let explf := fi.filterMap
            (fun p => if p.2.ftype = "expl" then some p.1 else none)
          let targetArity := match output with
            | [o] => alookup encoders o
            | _ => none
          let mets := sensf.foldl
            (fun m s => if (alookup m s).isSome then m else aset m s Metric.NMI)
            (metrics.getD [])
          .ok { encoders := encoders,
                holdout := data_source.holdout,
                metrics := mets,
                trained_trees := [],
                contexts := [],
                stats := [],
                train_params := none,
                test_params := none,
                display_params := none,
                feature_info := fi,
                test_set_size := 0,
                random_state := random_state.getD 0,
                train_set := tset,
                sens_features := sensf,
                expl := explf.head?,
                output := { names := output, num_labels := output.length,
                            arity := targetArity } }

/-- Modelled from the spec: the three score-aggregation policies of
`guided_tree.ScoreParams` (module not among the provided sources; the
names are those listed in the spec and in `train`'s own error message). -/
def ScoreParamsAGG_TYPES : List String := ["avg", "weighted_avg", "max"]

/-- The per-protected-feature training loop of `train` (lines 215-227):
looks the metric up (`inv.metrics[sens]`, a `KeyError` when absent),
builds the tree and stores it under the feature name. -/
def trainSens (inv : Investigation) (params : TrainParams)
    (subsample_frac : Rat) : List String → Nat → Option Err × Investigation × Nat
  | [], rng => (none, inv, rng)
  | sens :: rest, rng =>
    match alookup inv.metrics sens with
    | none => (some (.keyError sens), inv, rng)
    | some m =>
      let tr := build_tree inv.train_set inv.feature_info sens inv.expl
        inv.output m inv.holdout.test_set_conf params.max_depth
        params.min_leaf_size params.agg_type params.max_bins subsample_frac rng
      trainSens { inv with trained_trees := aset inv.trained_trees sens tr.1 }
        params subsample_frac rest tr.2

/-- The body of `train`'s loop over one investigation (lines 206-227):
stores the `train_params` record, then trains every protected feature. -/
def trainOne (inv : Investigation) (params : TrainParams)
    (subsample_frac : Rat) (rng : Nat) : Option Err × Investigation × Nat :=
  let inv1 := { inv with train_params := some params }
  trainSens inv1 params subsample_frac inv1.sens_features rng

/-- `train`'s loop over the investigations; an exception propagates but
the mutations already performed remain visible. -/
def trainLoop (params : TrainParams) (subsample_frac : Rat) :
    List Investigation → Nat → Option Err × List Investigation × Nat
  | [], rng => (none, [], rng)
  | inv :: rest, rng =>
    match trainOne inv params subsample_frac rng with
    | (some e, inv', rng') => (some e, inv' :: rest, rng')
    | (none, inv', rng') =>
      let r := trainLoop params subsample_frac rest rng'
      (r.1, inv' :: r.2.1, r.2.2)

/-- Embedding of `train` (investigation.py lines 156-227).  The
configuration checks (lines 188-196) run, in source order, before any
investigation is touched; the `train_set is None` re-initialization check
is unrepresentable here because every constructed investigation carries a
training table.  Returns the possible exception, the investigations with
their in-place mutations, and the python generator state. -/
def train (invs : List Investigation) (max_depth min_leaf_size : Int)
    (score_aggregation : String) (max_bins : Int) (subsample_frac : Rat)
    (rng : Nat) : Option Err × List Investigation × Nat :=
  if max_depth < 0 then
    (some (.valueError "max_depth must be non-negative"), invs, rng)
  else if min_leaf_size ≤ 0 then
    (some (.valueError "min_leaf_size must be positive"), invs, rng)
  else if score_aggregation ∉ ScoreParamsAGG_TYPES then
    (some (.valueError "score_aggregation should be one of avg, weighted_avg or max"),
     invs, rng)
  else if max_bins ≤ 0 then
    (some (.valueError "max_bins must be positive"), invs, rng)
  else
    trainLoop { max_depth := max_depth, min_leaf_size := min_leaf_size,
                agg_type := score_aggregation, max_bins := max_bins }
      subsample_frac invs rng

/-- The phase/consistency check loop of `test` (lines 273-280): every
investigation must have trained trees, and must reference the same holdout
object as the first investigation. -/
def checkPhase : List Investigation → HoldoutRef → Option Err
  | [], _ => none
  | inv :: rest, hd =>
    if inv.trained_trees = [] then
      some (.runtimeError "Investigation was not trained")
    else if inv.holdout ≠ hd then
      some (.runtimeError "All tested investigations should use the same holdout set")
    else checkPhase rest hd

/-- The per-protected-feature loop of `test` (lines 299-310): resolves the
metric override (a string goes through `metric_from_string`, with no
keyword arguments), reads the trained tree (`inv.trained_trees[sens]`, a
`KeyError` when absent) and stores the extracted contexts. -/
def testSens (nmi : List (String × NewMetricArg)) (prune : Bool)
    (tdata : List Int) : Investigation → List String → Option Err × Investigation
  | inv, [] => (none, inv)
  | inv, sens :: rest =>
    let nmRes : Except Err (Option Metric) :=
      match alookup nmi sens with
      | some (.str s) =>
        match metric_from_string s none with
        | .ok m => .ok (some m)
        | .error e => .error e
      | some (.metric m) => .ok (some m)
      | none => .ok none
    match nmRes with
    | .error e => (some e, inv)
    | .ok nmo =>
      match alookup inv.trained_trees sens with
      | none => (some (.keyError sens), inv)
      | some tree =>
        let ctx := find_contexts tree tdata inv.feature_info sens inv.expl
          inv.output prune nmo
        testSens nmi prune tdata
          { inv with contexts := aset inv.contexts sens ctx } rest

/-- The body of `test`'s main loop for one investigation (lines 285-310):
stores the `test_params` record, the test-set size (the base class's
`preprocess_test_data` is the identity), the optional explanatory-feature
override, then extracts the contexts of every protected feature. -/
def testOne (inv : Investigation) (nmi : List (String × NewMetricArg))
    (nei : Option String) (prune exact : Bool) (tdata : List Int) :
    Option Err × Investigation :=
  let inv1 := { inv with
    test_params := some { prune_insignificant := prune, exact := exact,
                          family_conf := inv.holdout.test_set_conf },
    test_set_size := tdata.length }
  let inv2 := match nei with
    | some e => { inv1 with expl := some e }
    | none => inv1
  testSens nmi prune tdata inv2 inv2.sens_features

/-- `test`'s main loop over the investigations, paired with their
`new_metrics` and `new_expl` entries. -/
def testMain (prune exact : Bool) (tdata : List Int) :
    List Investigation → List (List (String × NewMetricArg)) →
    List (Option String) → Option Err × List Investigation
  | [], _, _ => (none, [])
  | inv :: rest, nms, nes =>
    match testOne inv (nms.headD []) (nes.headD none) prune exact tdata with
    | (some e, inv') => (some e, inv' :: rest)
    | (none, inv') =>
      let r := testMain prune exact tdata rest nms.tail nes.tail
      (r.1, inv' :: r.2)

/-- The body of `test` (investigation.py lines 230-319) up to its effect
on the numpy generator.  Returns the possible exception, the
investigations with their in-place mutations, the holdout's unused pool,
and `some finalState` when `np.random` was reseeded and consumed (the
success path), `none` when it was left untouched.  The disabled
`try/except` of lines 284 and 318 (`if 1: #try:` … `else: #except`) means
the error paths after `get_test_set` do NOT return the checked-out data to
the holdout. -/
def testCore (invs : List Investigation) (prune exact correct : Bool)
    (new_metrics : Option (List (List (String × NewMetricArg))))
    (new_expl : Option (List (Option String))) (pool : List Int) :
    Option Err × List Investigation × List Int × Option Nat :=
  let nm := new_metrics.getD (List.replicate invs.length [])
  if nm.length ≠ invs.length then
    (some (.valueError "new_metrics should be None, or a list of dictionaries for each investigation"),
     invs, pool, none)
  else
    let ne := new_expl.getD (List.replicate invs.length none)
    if ne.length ≠ invs.length then
      (some (.valueError "new_expl should be None, or a list of features for each investigation"),
       invs, pool, none)
    else
      match invs with
      | [] => (some .indexError, invs, pool, none)
      | inv0 :: _ =>
        match checkPhase invs inv0.holdout with
        | some e => (some e, invs, pool, none)
        | none =>
          let td := (get_test_set pool).1
          let pool' := (get_test_set pool).2
          match testMain prune exact td invs nm ne with
          | (some e, invs') => (some e, invs', pool', none)
          | (none, invs') =>
            let seeded := npSeed inv0.random_state
            let r := compute_all_stats invs' exact inv0.holdout.test_set_conf
              correct seeded
            (none, r.1, pool', some r.2)

/-- Embedding of `test` (investigation.py lines 230-319), threading the
ambient numpy generator state: the observable outcome never depends on it
because `np.random.seed` runs before `compute_all_stats`, but the final
generator state does. -/
def test (invs : List Investigation) (prune exact correct : Bool)
    (new_metrics : Option (List (List (String × NewMetricArg))))
    (new_expl : Option (List (Option String))) (pool : List Int)
    (npRng : Nat) : Option Err × List Investigation × List Int × Nat :=
  let core := testCore invs prune exact correct new_metrics new_expl pool
  (core.1, core.2.1, core.2.2.1, (core.2.2.2).getD npRng)

/-- Modelled from the spec: the node filters of `filter_rank` (module not
among the provided sources; the names are those in `report`'s own error
message). -/
def NODE_FILTERS : List String := ["all", "leaves", "root", "better_than_ancestors"]

/-- The default `node_filter` argument of `report`. -/
def FILTER_BETTER_THAN_ANCESTORS : String := "better_than_ancestors"

/-- The phase check loop of `report` (lines 365-368): every investigation
must have computed statistics. -/
def statsCheck : List Investigation → Option Err
  | [] => none
  | inv :: rest =>
    if inv.stats = [] then some (.runtimeError "Investigation was not tested")
    else statsCheck rest

/-- The emissions of `report`, abstracting the text written to the output
stream: one `info` event per investigation (the `print_report_info` call)
and one `bug` event per reported protected feature (the header writes and
the `bug_report` call). -/
inductive REvent where
  | info (idx : Nat)
  | bug (idx : Nat) (sens : String)
deriving DecidableEq, Repr

/-- Modelled from the spec: `report_module.bug_report` (module not among
the provided sources); returns the report text for one protected
feature. -/
def bug_report (ctxs : ContextSet) (st : StatRecord) (sens : String) : String :=
  "report for " ++ sens ++ " over " ++ toString st.ctxs.data.length ++
    " rows and " ++ toString ctxs.data.length ++ " rows"

/-- The per-protected-feature reporting loop of `report` (lines 409-434):
reads the statistics and contexts (`KeyError` when absent), emits the bug
report, and — the source's early exit — returns the report text as soon as
the investigation has exactly one protected feature. -/
def reportSensLoop (inv : Investigation) (idx : Nat) :
    List String → Option Err × List REvent × Option String
  | [] => (none, [], none)
  | sens :: rest =>
    match alookup inv.stats sens with
    | none => (some (.keyError sens), [], none)
    | some st =>
      match alookup inv.contexts sens with
      | none => (some (.keyError sens), [], none)
      | some ctxs =>
        let txt := bug_report ctxs st sens
        if inv.sens_features.length = 1 then
          (none, [.bug idx sens], some txt)
        else
          let r := reportSensLoop inv idx rest
          (r.1, .bug idx sens :: r.2.1, r.2.2)

/-- `report`'s loop over the investigations (lines 370-437): stores the
display parameters, checks the output directory when one is given
(`existing_dirs` models the file system's directories), emits the
per-investigation information, then reports every protected feature; an
early return from `reportSensLoop` ends the whole call. -/
def reportInvLoop (od : Option String) (existing_dirs : List String)
    (node_filter : String) :
    List Investigation → Nat → Option Err × List Investigation × List REvent × Option String
  | [], _ => (none, [], [], none)
  | inv :: rest, idx =>
    let inv1 := { inv with display_params := some { node_filter := node_filter } }
    let dirErr : Option Err := match od with
      | none => none
      | some d => if d ∈ existing_dirs then none else some (.ioError d)
    match dirErr with
    | some e => (some e, inv1 :: rest, [], none)
    | none =>
      match reportSensLoop inv1 idx inv1.sens_features with
      | (some e, evts, _) => (some e, inv1 :: rest, REvent.info idx :: evts, none)
      | (none, evts, some txt) =>
        (none, inv1 :: rest, REvent.info idx :: evts, some txt)
      | (none, evts, none) =>
        let r := reportInvLoop od existing_dirs node_filter rest (idx + 1)
        (r.1, inv1 :: r.2.1, REvent.info idx :: evts ++ r.2.2.1, r.2.2.2)

/-- Embedding of `report` (investigation.py lines 322-437).  Returns the
possible exception, the investigations with their in-place mutations, the
emitted report events, and the returned report text (the source returns
the text of the last bug report when the first investigation with exactly
one protected feature is reached, `None` otherwise). -/
def report (invs : List Investigation) (dataname : String) (od : Option String)
    (existing_dirs : List String) (filter_conf : Rat) (node_filter : String) :
    Option Err × List Investigation × List REvent × Option String :=
  if ¬(0 ≤ filter_conf ∧ filter_conf < 1) then
    (some (.valueError "filter_conf should be in the interval from 0 to 1"),
     invs, [], none)
  else if node_filter ∉ NODE_FILTERS then
    (some (.valueError "node_filter should be one of all, leaves, root or better_than_ancestors"),
     invs, [], none)
  else
    match statsCheck invs with
    | some e => (some e, invs, [], none)
    | none => reportInvLoop od existing_dirs node_filter invs 0

/-- The train-then-test pipeline on one freshly constructed investigation,
threading the ambient states of the two external pseudo-random generators.
`Investigation.__init__` executes `random.seed(random_state)`, so after a
successful construction the python generator state is `pySeed` of the
investigation's `random_state`, independent of the ambient `pyRng`;
`test` reseeds numpy's generator before `compute_all_stats`.  Returns the
observable outcome: the possible exception, the investigations (with
trained trees, contexts and statistics), and the holdout's unused pool. -/
def pipeline (ds : DataSource) (protected_ output expl : List String)
    (metrics : Option (List (String × Metric))) (random_state : Option Nat)
    (to_drop : Option (List String)) (max_depth min_leaf_size : Int)
    (agg : String) (max_bins : Int) (subsample_frac : Rat)
    (prune exact correct : Bool) (pool : List Int) (pyRng npRng : Nat) :
    Option Err × List Investigation × List Int :=
  match investigation_init ds protected_ output expl metrics random_state to_drop with
  | .error e => (some e, [], pool)
  | .ok inv =>
    match train [inv] max_depth min_leaf_size agg max_bins subsample_frac
        (pySeed inv.random_state) with
    | (some e, invs1, _) => (some e, invs1, pool)
    | (none, invs1, _) =>
      let r := test invs1 prune exact correct none none pool npRng
      (r.1, r.2.1, r.2.2.1)

/-- A concrete holdout used by the concrete instances below. -/
def hd0 : HoldoutRef := { hid := 0, test_set_conf := 1 }

/-- A second, distinct holdout object. -/
def hd1 : HoldoutRef := { hid := 1, test_set_conf := 1 }

/-- A concrete data source: a 100-row training table with a protected
column and an output column, the encoder declaring the protected column
binary. -/
def ds0 : DataSource :=
  { train_data := { cols := ["gender", "price"], nrows := 100 },
    holdout := hd0, encoders := some [("gender", 2)] }

/-- A default investigation record (used only as the fallback of
`Option.getD` on construction results that are known to succeed). -/
def invDefault : Investigation :=
  { encoders := [], holdout := hd0, metrics := [], trained_trees := [],
    contexts := [], stats := [], train_params := none, test_params := none,
    display_params := none, feature_info := [], test_set_size := 0,
    random_state := 0, train_set := { cols := [], nrows := 0 },
    sens_features := [], expl := none,
    output := { names := [], num_labels := 0, arity := none } }

/-- The investigation constructed from `ds0` with protected feature
`gender`, output `price` and random state 7. -/
def invA : Investigation :=
  ((investigation_init ds0 ["gender"] ["price"] [] none (some 7) none).toOption).getD
    invDefault

/-- A concrete run exhibiting the lost checkout of the holdout's test
data: `invA` is trained successfully, then tested with a `new_metrics`
entry naming an unknown metric, which makes `metric_from_string` raise
inside the testing block after `get_test_set` has handed out the holdout's
pool `[1, 2, 3]`. -/
def c1run : Option Err × List Investigation × List Int × Nat :=
  match train [invA] 5 100 "avg" 10 1 (pySeed 7) with
  | (some e, invs, rng) => (some e, invs, [1, 2, 3], rng)
  | (none, invs, _) =>
    test invs true true true (some [[("gender", NewMetricArg.str "FOO")]])
      none [1, 2, 3] 42

/-- An untrained, untested investigation with one protected feature. -/
def invBad : Investigation := { invDefault with sens_features := ["g"] }

/-- An investigation referencing the second holdout object. -/
def invB2 : Investigation := { invDefault with holdout := hd1 }

/-- A concrete trained tree for the reporting fixtures. -/
def tree0 : Tree :=
  { cols := ["c"], nrows := 10, features := [], sens := "g", expl := none,
    outNames := ["o"], metric := .NMI, conf := 1, max_depth := 1,
    min_leaf_size := 1, agg := "avg", max_bins := 2, sampleSeed := none }

/-- A concrete extracted context collection for the reporting fixtures. -/
def ctx0 : ContextSet :=
  { tree := tree0, data := [1], features := [], sens := "g", expl := none,
    outNames := ["o"], prune := true, newMetric := none }

/-- A concrete statistic record for the reporting fixtures. -/
def st0 : StatRecord :=
  { ctxs := ctx0, exact := true, conf := 1, correct := true, seed := 0 }

/-- A tested investigation with exactly one protected feature, ready to be
reported on. -/
def invR : Investigation :=
  { invDefault with
      sens_features := ["g"],
      stats := [("g", st0)],
      contexts := [("g", ctx0)] }

/-- The result of training `invA` with the default parameters. -/
def invATrained : Investigation :=
  ((train [invA] 5 100 "avg" 10 1 (pySeed 7)).2.1).headD invDefault

/-- The tree the training loop stores for feature `s` when run on `inv`
with parameters `p`, python generator state `rng` and no subsampling
(`subsample_frac = 1`). -/
def treeOf (inv : Investigation) (p : TrainParams) (rng : Nat) (s : String) : Tree :=
  match alookup inv.metrics s with
  | some m =>
    (build_tree inv.train_set inv.feature_info s inv.expl inv.output m
      inv.holdout.test_set_conf p.max_depth p.min_leaf_size p.agg_type
      p.max_bins 1 rng).1
  | none => tree0

/-- The metric identifiers recognized by `metric_from_string`. -/
def recognizedMetricNames : List String :=
  ["NMI", "MI", "CORR", "DIFF", "RATIO", "REGRESSION", "CondDIFF", "CondNMI",
   "CondCorr"]

/-- C1: the claim states that when the test phase aborts with an exception
after the holdout's test data was handed out by `get_test_set`, the `test`
function gives the data back through `return_unused_data`.  The code does
not: the `try`/`except` of investigation.py lines 284 and 318 is disabled
(`if 1: #try:` … `else: #except Exception as e:`), so the recovery hook is
dead code.  In this concrete run the holdout's pool `[1, 2, 3]` is handed
out, `metric_from_string` raises inside the testing block, and the pool is
left empty instead of being restored (which `return_unused_data` would
have done). -/
theorem c1_test_data_not_returned_on_abort :
    c1run.1 = some (Err.valueError "Unknown fairness Metric FOO") ∧
    c1run.2.2.1 = ([] : List Int) ∧
    return_unused_data [] [1, 2, 3] = [1, 2, 3] :=
  ⟨by decide, by decide, rfl⟩

/-- C4: `train` validates its configuration (negative `max_depth`,
non-positive `min_leaf_size` or `max_bins`, unrecognized aggregation
policy) and raises a `ValueError` before any tree is built and before any
investigation is mutated: the investigations and the generator state are
returned unchanged. -/
theorem c4_train_validates_configuration (invs : List Investigation)
    (md mls : Int) (agg : String) (mb : Int) (sf : Rat) (rng : Nat)
    (h : md < 0 ∨ mls ≤ 0 ∨ mb ≤ 0 ∨ agg ∉ ScoreParamsAGG_TYPES) :
    ∃ msg, train invs md mls agg mb sf rng = (some (Err.valueError msg), invs, rng) := by
  by_cases h1 : md < 0
  · refine ⟨"max_depth must be non-negative", ?_⟩
    simp [train, h1]
  · by_cases h2 : mls ≤ 0
    · refine ⟨"min_leaf_size must be positive", ?_⟩
      simp [train, h1, h2]
    · by_cases h3 : agg ∉ ScoreParamsAGG_TYPES
      · refine ⟨"score_aggregation should be one of avg, weighted_avg or max", ?_⟩
        simp [train, h1, h2, h3]
      · have h4 : mb ≤ 0 := by tauto
        refine ⟨"max_bins must be positive", ?_⟩
        simp [train, h1, h2, h3, h4]

/-- Witness for C4 at a concrete invalid configuration. -/
theorem c4_witness :
    ∃ msg, train [] (-1) 100 "avg" 10 1 0 = (some (Err.valueError msg), [], 0) :=
  c4_train_validates_configuration [] (-1) 100 "avg" 10 1 0 (Or.inl (by norm_num))

/-- C7: `metric_from_string` returns a metric for exactly the recognized
identifiers (`NMI`, `MI`, `CORR`, `DIFF`, `RATIO`, `REGRESSION`,
`CondDIFF`, `CondNMI`, `CondCorr`; `REGRESSION` additionally consumes the
`topk` keyword argument) and raises a `ValueError` for every other string,
whatever keyword arguments are supplied. -/
theorem c7_metric_from_string_classification :
    (∀ s, s ∈ recognizedMetricNames →
      ∀ k, ∃ m, metric_from_string s (some k) = .ok m) ∧
    (∀ s, s ∉ recognizedMetricNames →
      ∀ topk, ∃ msg, metric_from_string s topk = .error (.valueError msg)) := by
  constructor
  · intro s hs k
    simp only [recognizedMetricNames, List.mem_cons, List.not_mem_nil,
      or_false] at hs
    rcases hs with rfl | rfl | rfl | rfl | rfl | rfl | rfl | rfl | rfl <;>
      exact ⟨_, rfl⟩
  · intro s hs topk
    simp only [recognizedMetricNames, List.mem_cons, List.not_mem_nil,
      or_false, not_or] at hs
    obtain ⟨h1, h2, h3, h4, h5, h6, h7, h8, h9⟩ := hs
    refine ⟨"Unknown fairness Metric " ++ s, ?_⟩
    simp [metric_from_string, h1, h2, h3, h4, h5, h6, h7, h8, h9]

/-- Witness for C7: a recognized identifier yields a metric, an unknown
one a `ValueError`. -/
theorem c7_witness :
    (∃ m, metric_from_string "CORR" (some 1) = .ok m) ∧
    (∃ msg, metric_from_string "XYZ" none = .error (.valueError msg)) :=
  ⟨c7_metric_from_string_classification.1 "CORR" (by decide) 1,
   c7_metric_from_string_classification.2 "XYZ" (by decide) none⟩

/-- The phase check of `test` detects any member referencing a holdout
different from the reference one. -/
theorem checkPhase_isSome_of_diff {invs : List Investigation} {hd : HoldoutRef}
    {inv : Investigation} (hm : inv ∈ invs) (h : inv.holdout ≠ hd) :
    (checkPhase invs hd).isSome := by
  induction invs with
  | nil => cases hm
  | cons a rest ih =>
    simp only [checkPhase]
    by_cases h1 : a.trained_trees = []
    · simp [h1]
    · by_cases h2 : a.holdout ≠ hd
      · simp [h1, h2]
      · push_neg at h2
        rcases List.mem_cons.mp hm with rfl | hm'
        · exact absurd h2 h
        · simp only [h1, h2, if_neg, ite_not, if_pos]
          simpa [h1, h2] using ih hm'

/-- C2: a `test` call over investigations among which two reference
different holdout objects raises, and mutates nothing: the investigations,
the holdout's unused pool and the numpy generator state are all returned
unchanged, because the phase/consistency checks run before `get_test_set`
and before any per-investigation write. -/
theorem c2_mixed_holdouts_rejected (invs : List Investigation)
    (a b : Investigation) (ha : a ∈ invs) (hb : b ∈ invs)
    (hne : a.holdout ≠ b.holdout) (prune exact correct : Bool)
    (nm : Option (List (List (String × NewMetricArg))))
    (ne : Option (List (Option String))) (pool : List Int) (npRng : Nat) :
    ((test invs prune exact correct nm ne pool npRng).1).isSome ∧
    (test invs prune exact correct nm ne pool npRng).2.1 = invs ∧
    (test invs prune exact correct nm ne pool npRng).2.2.1 = pool ∧
    (test invs prune exact correct nm ne pool npRng).2.2.2 = npRng := by
  have hcore : ∃ e, testCore invs prune exact correct nm ne pool =
      (some e, invs, pool, none) := by
    by_cases hnm : (nm.getD (List.replicate invs.length [])).length = invs.length
    · by_cases hne2 : (ne.getD (List.replicate invs.length none)).length = invs.length
      · cases invs with
        | nil => cases ha
        | cons inv0 rest =>
          have hsome : (checkPhase (inv0 :: rest) inv0.holdout).isSome := by
            by_cases hah : a.holdout = inv0.holdout
            · exact checkPhase_isSome_of_diff hb (fun hbh => hne (hah ▸ hbh ▸ rfl))
            · exact checkPhase_isSome_of_diff ha hah
          obtain ⟨e, he⟩ := Option.isSome_iff_exists.mp hsome
          refine ⟨e, ?_⟩
          simp only [testCore]
          rw [if_neg (by simpa using hnm), if_neg (by simpa using hne2), he]
      · refine ⟨Err.valueError
          "new_expl should be None, or a list of features for each investigation", ?_⟩
        simp only [testCore]
        rw [if_neg (by simpa using hnm), if_pos (by simpa using hne2)]
    · refine ⟨Err.valueError
        "new_metrics should be None, or a list of dictionaries for each investigation", ?_⟩
      simp only [testCore]
      rw [if_pos (by simpa using hnm)]
  obtain ⟨e, he⟩ := hcore
  refine ⟨?_, ?_, ?_, ?_⟩ <;> simp [test, he]

/-- Witness for C2 at two concrete investigations with distinct
holdouts. -/
theorem c2_witness :
    ((test [invDefault, invB2] true true true none none [5] 3).1).isSome ∧
    (test [invDefault, invB2] true true true none none [5] 3).2.1 =
      [invDefault, invB2] ∧
    (test [invDefault, invB2] true true true none none [5] 3).2.2.1 = [5] ∧
    (test [invDefault, invB2] true true true none none [5] 3).2.2.2 = 3 :=
  c2_mixed_holdouts_rejected [invDefault, invB2] invDefault invB2
    (by simp) (by simp) (by decide) true true true none none [5] 3

/-- When the per-feature testing loop finishes without an exception, every
protected feature it visited had a trained tree. -/
theorem testSens_none_trees {nmi : List (String × NewMetricArg)} {prune : Bool}
    {tdata : List Int} :
    ∀ (l : List String) (inv inv' : Investigation),
      testSens nmi prune tdata inv l = (none, inv') →
      ∀ s ∈ l, (alookup inv.trained_trees s).isSome := by
  intro l
  induction l with
  | nil => intro inv inv' _ s hs; cases hs
  | cons s0 rest ih =>
    intro inv inv' h s hs
    simp only [testSens] at h
    rcases hnm : (match alookup nmi s0 with
      | some (.str str) =>
        match metric_from_string str none with
        | .ok m => (Except.ok (some m) : Except Err (Option Metric))
        | .error e => Except.error e
      | some (.metric m) => Except.ok (some m)
      | none => Except.ok none) with e | nmo
    · rw [hnm] at h
      simp at h
    · rw [hnm] at h
      rcases htree : alookup inv.trained_trees s0 with _ | tree
      · rw [htree] at h
        simp at h
      · rw [htree] at h
        rcases List.mem_cons.mp hs with rfl | hs'
        · simp [htree]
        · exact ih _ _ h s hs'

/-- When `testOne` finishes without an exception, every protected feature
of the investigation had a trained tree. -/
theorem testOne_none_trees {inv inv' : Investigation}
    {nmi : List (String × NewMetricArg)} {nei : Option String}
    {prune exact : Bool} {tdata : List Int}
    (h : testOne inv nmi nei prune exact tdata = (none, inv')) :
    ∀ s ∈ inv.sens_features, (alookup inv.trained_trees s).isSome := by
  intro s hs
  unfold testOne at h
  cases nei with
  | none => exact testSens_none_trees _ _ _ h s hs
  | some e => exact testSens_none_trees _ _ _ h s hs

/-- When `test`'s main loop finishes without an exception, every protected
feature of every investigation had a trained tree. -/
theorem testMain_none_trees {prune exact : Bool} {tdata : List Int} :
    ∀ (invs : List Investigation) (nms : List (List (String × NewMetricArg)))
      (nes : List (Option String)),
      (testMain prune exact tdata invs nms nes).1 = none →
      ∀ inv ∈ invs, ∀ s ∈ inv.sens_features, (alookup inv.trained_trees s).isSome := by
  intro invs
  induction invs with
  | nil => intro nms nes _ inv hm; cases hm
  | cons inv0 rest ih =>
    intro nms nes h inv hm s hs
    simp only [testMain] at h
    rcases hto : testOne inv0 (nms.headD []) (nes.headD none) prune exact tdata
      with ⟨err, inv0'⟩
    rw [hto] at h
    cases err with
    | some e => simp at h
    | none =>
      simp only at h
      rcases List.mem_cons.mp hm with rfl | hm'
      · exact testOne_none_trees hto s hs
      · exact ih nms.tail nes.tail h inv hm' s hs

/-- The phase check of `report` detects any member with no computed
statistics. -/
theorem statsCheck_isSome_of_empty {invs : List Investigation}
    {inv : Investigation} (hm : inv ∈ invs) (h : inv.stats = []) :
    (statsCheck invs).isSome := by
  induction invs with
  | nil => cases hm
  | cons a rest ih =>
    simp only [statsCheck]
    by_cases h1 : a.stats = []
    · simp [h1]
    · rcases List.mem_cons.mp hm with rfl | hm'
      · exact absurd h h1
      · simpa [h1] using ih hm'

/-- C3: phase ordering is enforced as a fatal error.  First conjunct: if
some investigation passed to `test` has a protected feature without a
trained tree (in particular if it was never trained), `test` raises.
Second conjunct: if some investigation passed to `report` has no computed
statistics, `report` raises and emits nothing. -/
theorem c3_phase_ordering_enforced :
    (∀ (invs : List Investigation) (prune exact correct : Bool)
      (nm : Option (List (List (String × NewMetricArg))))
      (ne : Option (List (Option String))) (pool : List Int) (npRng : Nat)
      (inv : Investigation), inv ∈ invs →
      ∀ s ∈ inv.sens_features, alookup inv.trained_trees s = none →
      ((test invs prune exact correct nm ne pool npRng).1).isSome) ∧
    (∀ (invs : List Investigation) (dataname : String) (od : Option String)
      (dirs : List String) (fc : Rat) (nf : String) (inv : Investigation),
      inv ∈ invs → inv.stats = [] →
      ((report invs dataname od dirs fc nf).1).isSome ∧
      (report invs dataname od dirs fc nf).2.2.1 = []) := by
  constructor
  · intro invs prune exact correct nm ne pool npRng inv hm s hs hnone
    rcases hcore : testCore invs prune exact correct nm ne pool
      with ⟨err, invs', pool', rngo⟩
    cases err with
    | some e => simp [test, hcore]
    | none =>
      exfalso
      simp only [testCore] at hcore
      split at hcore
      · simp at hcore
      · split at hcore
        · simp at hcore
        · split at hcore
          · simp at hcore
          · split at hcore
            · simp at hcore
            · split at hcore
              · simp at hcore
              · rename_i heq
                have := testMain_none_trees _ _ _ (by rw [heq]) inv hm s hs
                rw [hnone] at this
                simp at this
  · intro invs dataname od dirs fc nf inv hm hempty
    by_cases hfc : 0 ≤ fc ∧ fc < 1
    · by_cases hnf : nf ∈ NODE_FILTERS
      · obtain ⟨e, he⟩ := Option.isSome_iff_exists.mp
          (statsCheck_isSome_of_empty hm hempty)
        constructor <;> simp [report, hfc, hnf, he]
      · constructor <;> simp [report, hfc, hnf]
    · constructor <;> simp [report, hfc]

/-- Witness for C3: an untrained, untested investigation makes both `test`
and `report` raise. -/
theorem c3_witness :
    ((test [invBad] true true true none none [] 0).1).isSome ∧
    ((report [invBad] "d" none [] 0 "all").1).isSome ∧
    (report [invBad] "d" none [] 0 "all").2.2.1 = [] :=
  ⟨c3_phase_ordering_enforced.1 [invBad] true true true none none [] 0 invBad
    (by simp) "g" (by simp [invBad, invDefault]) rfl,
   (c3_phase_ordering_enforced.2 [invBad] "d" none [] 0 "all" invBad
     (by simp) rfl).1,
   (c3_phase_ordering_enforced.2 [invBad] "d" none [] 0 "all" invBad
     (by simp) rfl).2⟩

/-- The protected-feature availability check fires when some protected
feature is missing from the (post-drop) training columns. -/
theorem checkFeatures_isSome_of_missing {l cols : List String} {s : String}
    (hs : s ∈ l) (h : s ∉ cols) : (checkFeatures l cols).isSome := by
  induction l with
  | nil => cases hs
  | cons a rest ih =>
    simp only [checkFeatures]
    by_cases ha : a ∈ cols
    · rcases List.mem_cons.mp hs with rfl | hs'
      · exact absurd ha h
      · simpa [ha] using ih hs'
    · simp [ha]

/-- Every error produced by the protected-feature check is a
`ValueError`. -/
theorem checkFeatures_some_valueError {l cols : List String} {e : Err}
    (h : checkFeatures l cols = some e) : ∃ msg, e = Err.valueError msg := by
  induction l with
  | nil => simp [checkFeatures] at h
  | cons a rest ih =>
    simp only [checkFeatures] at h
    by_cases ha : a ∈ cols
    · rw [if_pos ha] at h
      exact ih h
    · rw [if_neg ha] at h
      exact ⟨_, (Option.some.injEq _ _ ▸ h.symm :)⟩

/-- The output availability check fires when some output column is missing
from the (post-drop) training columns. -/
theorem checkTargets_isSome_of_missing {l cols : List String} {t : String}
    (ht : t ∈ l) (h : t ∉ cols) : (checkTargets l cols).isSome := by
  induction l with
  | nil => cases ht
  | cons a rest ih =>
    simp only [checkTargets]
    by_cases ha : a ∈ cols
    · rcases List.mem_cons.mp ht with rfl | ht'
      · exact absurd ha h
      · simpa [ha] using ih ht'
    · simp [ha]

/-- Every error produced by the output check is a `ValueError`. -/
theorem checkTargets_some_valueError {l cols : List String} {e : Err}
    (h : checkTargets l cols = some e) : ∃ msg, e = Err.valueError msg := by
  induction l with
  | nil => simp [checkTargets] at h
  | cons a rest ih =>
    simp only [checkTargets] at h
    by_cases ha : a ∈ cols
    · rw [if_pos ha] at h
      exact ih h
    · rw [if_neg ha] at h
      exact ⟨_, (Option.some.injEq _ _ ▸ h.symm :)⟩

/-- C8: constructing an investigation whose protected-feature list or
output names a column absent from the training set (after the `to_drop`
columns have been removed) raises a `ValueError`, so no such investigation
object is ever created. -/
theorem c8_missing_feature_raises (ds : DataSource) (prot out expl : List String)
    (mets : Option (List (String × Metric))) (rs : Option Nat)
    (td : List String) (tset : DTable)
    (hdrop : dropCols ds.train_data td = .ok tset)
    (hmiss : (∃ s ∈ prot, s ∉ tset.cols) ∨ (∃ t ∈ out, t ∉ tset.cols)) :
    ∃ msg, investigation_init ds prot out expl mets rs (some td) =
      .error (.valueError msg) := by
  by_cases hp : prot = []
  · refine ⟨"at least one protected feature must be specified", ?_⟩
    simp [investigation_init, hp]
  · by_cases ho : out = []
    · refine ⟨"at least one output feature must be specified", ?_⟩
      simp [investigation_init, hp, ho]
    · rcases hmiss with ⟨s, hs, hnot⟩ | ⟨t, ht, hnot⟩
      · obtain ⟨e, he⟩ := Option.isSome_iff_exists.mp
          (checkFeatures_isSome_of_missing hs hnot)
        obtain ⟨msg, rfl⟩ := checkFeatures_some_valueError he
        exact ⟨msg, by simp [investigation_init, hp, ho, hdrop, he]⟩
      · rcases hcf : checkFeatures prot tset.cols with _ | e
        · obtain ⟨e, he⟩ := Option.isSome_iff_exists.mp
            (checkTargets_isSome_of_missing ht hnot)
          obtain ⟨msg, rfl⟩ := checkTargets_some_valueError he
          exact ⟨msg, by simp [investigation_init, hp, ho, hdrop, hcf, he]⟩
        · obtain ⟨msg, rfl⟩ := checkFeatures_some_valueError hcf
          exact ⟨msg, by simp [investigation_init, hp, ho, hdrop, hcf]⟩

/-- Witness for C8: asking for a protected feature that is not a column of
`ds0`'s training set fails at construction. -/
theorem c8_witness :
    ∃ msg, investigation_init ds0 ["zzz"] ["price"] [] none none (some []) =
      .error (.valueError msg) :=
  c8_missing_feature_raises ds0 ["zzz"] ["price"] [] none none [] ds0.train_data
    rfl (Or.inl ⟨"zzz", by simp, by decide⟩)

/-- C10: in every constructed investigation, each non-output column of the
training set is assigned exactly one role, computed by `mkFeatureFor` with
precedence protected (`sens`) over explanatory (`expl`) over `context`;
output columns receive no `feature_info` entry; and in particular a column
listed as protected is classified `sens` even when it is also listed as
explanatory. -/
theorem c10_feature_roles (ds : DataSource) (prot out expl : List String)
    (mets : Option (List (String × Metric))) (rs : Option Nat)
    (td : Option (List String)) (inv : Investigation)
    (h : investigation_init ds prot out expl mets rs td = .ok inv) :
    (∀ col ∈ inv.train_set.cols, col ∉ out →
      alookup inv.feature_info col =
        some (mkFeatureFor col prot expl inv.encoders)) ∧
    (∀ col ∈ out, alookup inv.feature_info col = none) ∧
    (∀ col ∈ inv.train_set.cols, col ∉ out → col ∈ prot →
      (alookup inv.feature_info col).map Feature.ftype = some "sens") := by
  simp only [investigation_init] at h
  split at h
  · exact absurd h (by simp)
  · split at h
    · exact absurd h (by simp)
    · split at h
      · exact absurd h (by simp)
      · rename_i tset _
        split at h
        · exact absurd h (by simp)
        · split at h
          · exact absurd h (by simp)
          · rw [Except.ok.injEq] at h
            subst h
            refine ⟨?_, ?_, ?_⟩
            · intro col hcol hnot
              exact alookup_foldl_aset_mem
                (fun c => mkFeatureFor c prot expl (ds.encoders.getD [])) _ _ _
                (List.mem_filter.mpr ⟨hcol, by simpa using hnot⟩)
            · intro col hcol
              have hnin : col ∉ tset.cols.filter (fun c => decide (c ∉ out)) := by
                intro hmem
                have := (List.mem_filter.mp hmem).2
                simp at this
                exact this hcol
              rw [alookup_foldl_aset_not_mem
                (fun c => mkFeatureFor c prot expl (ds.encoders.getD [])) _ _ _ hnin]
              rfl
            · intro col hcol hnot hprot
              rw [alookup_foldl_aset_mem
                (fun c => mkFeatureFor c prot expl (ds.encoders.getD [])) _ _ _
                (List.mem_filter.mpr ⟨hcol, by simpa using hnot⟩)]
              simp [mkFeatureFor, hprot]

/-- Witness for C10 on the concrete investigation `invA`: the protected
column gets role `sens` with its encoder arity, the output column gets no
entry. -/
theorem c10_witness :
    alookup invA.feature_info "gender" =
      some (mkFeatureFor "gender" ["gender"] [] invA.encoders) ∧
    alookup invA.feature_info "price" = none := by
  have h : investigation_init ds0 ["gender"] ["price"] [] none (some 7) none =
      .ok invA := rfl
  have r := c10_feature_roles ds0 ["gender"] ["price"] [] none (some 7) none invA h
  exact ⟨r.1 "gender" (by decide) (by decide), r.2.1 "price" (by simp)⟩

/-- The second component of `build_tree` with no subsampling is the
unchanged generator state. -/
theorem build_tree_one_rng (data : DTable) (fi : List (String × Feature))
    (sens : String) (expl : Option String) (output : Target) (m : Metric)
    (conf : Rat) (md mls : Int) (agg : String) (mb : Int) (rng : Nat) :
    (build_tree data fi sens expl output m conf md mls agg mb 1 rng).2 = rng := by
  simp [build_tree]

/-- When the per-feature training loop finishes without an exception,
every feature it visited had a metric. -/
theorem trainSens_none_metrics {params : TrainParams} {sf : Rat} :
    ∀ (l : List String) (inv : Investigation) (rng : Nat),
      (trainSens inv params sf l rng).1 = none →
      ∀ s ∈ l, (alookup inv.metrics s).isSome := by
  intro l
  induction l with
  | nil => intro inv rng _ s hs; cases hs
  | cons s0 rest ih =>
    intro inv rng h s hs
    simp only [trainSens] at h
    rcases hm : alookup inv.metrics s0 with _ | m
    · rw [hm] at h
      simp at h
    · rw [hm] at h
      rcases List.mem_cons.mp hs with rfl | hs'
      · simp [hm]
      · exact ih _ _ h s hs'

/-- Characterization of a successful run of the per-feature training loop
with no subsampling: no exception, the generator state is unchanged, every
field but `trained_trees` is preserved, and the stored tree of every
visited feature is the one `treeOf` describes (trees of unvisited features
are untouched). -/
theorem trainSens_run (params : TrainParams) :
    ∀ (l : List String) (inv : Investigation) (rng : Nat),
      (∀ s ∈ l, (alookup inv.metrics s).isSome) →
      ∃ inv', trainSens inv params 1 l rng = (none, inv', rng) ∧
        inv'.metrics = inv.metrics ∧ inv'.train_params = inv.train_params ∧
        inv'.sens_features = inv.sens_features ∧
        inv'.train_set = inv.train_set ∧
        inv'.feature_info = inv.feature_info ∧ inv'.expl = inv.expl ∧
        inv'.output = inv.output ∧ inv'.holdout = inv.holdout ∧
        (∀ s ∈ l, alookup inv'.trained_trees s = some (treeOf inv params rng s)) ∧
        (∀ s, s ∉ l → alookup inv'.trained_trees s = alookup inv.trained_trees s) := by
  intro l
  induction l with
  | nil =>
    intro inv rng _
    exact ⟨inv, by simp [trainSens], rfl, rfl, rfl, rfl, rfl, rfl, rfl, rfl,
      fun s hs => absurd hs (List.not_mem_nil s), fun s _ => rfl⟩
  | cons s0 rest ih =>
    intro inv rng hmet
    obtain ⟨m, hm⟩ := Option.isSome_iff_exists.mp (hmet s0 (by simp))
    have hmet2 : ∀ s ∈ rest, (alookup inv.metrics s).isSome :=
      fun s hs => hmet s (List.mem_cons_of_mem _ hs)
    obtain ⟨inv', hrun, hfields⟩ :=
      ih { inv with
             trained_trees := aset inv.trained_trees s0
               (build_tree inv.train_set inv.feature_info s0 inv.expl inv.output
                 m inv.holdout.test_set_conf params.max_depth
                 params.min_leaf_size params.agg_type params.max_bins 1 rng).1 }
        rng hmet2
    refine ⟨inv', ?_, ?_⟩
    · simp only [trainSens, hm]
      rw [build_tree_one_rng]
      exact hrun
    · obtain ⟨h1, h2, h3, h4, h5, h6, h7, h8, hmem, hnot⟩ := hfields

      refine ⟨h1, h2, h3, h4, h5, h6, h7, h8, ?_, ?_⟩
      · intro s hs
        rcases List.mem_cons.mp hs with rfl | hs'
        · by_cases hsr : s ∈ rest
          · exact (hmem s hsr).trans (by rfl)
          · rw [hnot s hsr, alookup_aset_self]
            simp [treeOf, hm]
        · exact (hmem s hs').trans (by rfl)
      · intro s hs
        have hs0 : s ≠ s0 := fun he => hs (he ▸ List.mem_cons_self s0 rest)
        have hsr : s ∉ rest := fun hmm => hs (List.mem_cons_of_mem _ hmm)
        rw [hnot s hsr]
        exact alookup_aset_ne _ _ _ _ (fun he => hs0 he.symm)

/-- `treeOf` depends only on the fields the training loop reads. -/
theorem treeOf_eq_of_fields {i1 i2 : Investigation}
    (hm : i1.metrics = i2.metrics) (hts : i1.train_set = i2.train_set)
    (hfi : i1.feature_info = i2.feature_info) (hex : i1.expl = i2.expl)
    (hout : i1.output = i2.output) (hh : i1.holdout = i2.holdout)
    (p : TrainParams) (rng : Nat) (s : String) :
    treeOf i1 p rng s = treeOf i2 p rng s := by
  simp [treeOf, hm, hts, hfi, hex, hout, hh]

/-- Characterization of a successful `trainOne` with no subsampling. -/
theorem trainOne_run (inv : Investigation) (params : TrainParams) (rng : Nat)
    (hmet : ∀ s ∈ inv.sens_features, (alookup inv.metrics s).isSome) :
    ∃ inv', trainOne inv params 1 rng = (none, inv', rng) ∧
      inv'.train_params = some params ∧ inv'.metrics = inv.metrics ∧
      inv'.sens_features = inv.sens_features ∧ inv'.train_set = inv.train_set ∧
      inv'.feature_info = inv.feature_info ∧ inv'.expl = inv.expl ∧
      inv'.output = inv.output ∧ inv'.holdout = inv.holdout ∧
      ∀ s ∈ inv.sens_features,
        alookup inv'.trained_trees s = some (treeOf inv params rng s) := by
  obtain ⟨inv', hrun, h1, h2, h3, h4, h5, h6, h7, h8, hmem, _⟩ :=
    trainSens_run params inv.sens_features { inv with train_params := some params }
      rng hmet
  exact ⟨inv', hrun, h2.trans rfl, h1, h3, h4, h5, h6, h7, h8,
    fun s hs => (hmem s hs).trans (by rfl)⟩

/-- Unfolding `trainLoop` on a one-element list. -/
theorem trainLoop_singleton (params : TrainParams) (sf : Rat)
    (inv : Investigation) (rng : Nat) :
    trainLoop params sf [inv] rng =
      ((trainOne inv params sf rng).1, [(trainOne inv params sf rng).2.1],
       (trainOne inv params sf rng).2.2) := by
  rcases h : trainOne inv params sf rng with ⟨err, inv', rng'⟩
  cases err <;> simp [trainLoop, h]

/-- C6: calling `train` a second time on the same investigation with valid
parameters does not raise; the stored `train_params` record and the
trained tree of every protected feature are silently replaced by the
results of the second call (namely the trees `treeOf` describes for the
second call's parameters, independent of the first call's results). -/
theorem c6_retraining_overwrites (inv inv1 : Investigation)
    (md1 mls1 : Int) (agg1 : String) (mb1 : Int)
    (md2 mls2 : Int) (agg2 : String) (mb2 : Int) (rng0 rng0' rng : Nat)
    (h1 : train [inv] md1 mls1 agg1 mb1 1 rng0 = (none, [inv1], rng0'))
    (hmd : ¬ md2 < 0) (hmls : ¬ mls2 ≤ 0)
    (hagg : agg2 ∈ ScoreParamsAGG_TYPES) (hmb : ¬ mb2 ≤ 0) :
    ∃ inv2, train [inv1] md2 mls2 agg2 mb2 1 rng = (none, [inv2], rng) ∧
      inv2.train_params = some (TrainParams.mk md2 mls2 agg2 mb2) ∧
      ∀ s ∈ inv.sens_features,
        alookup inv2.trained_trees s =
          some (treeOf inv (TrainParams.mk md2 mls2 agg2 mb2) rng s) := by
  have hloop1 : trainLoop (TrainParams.mk md1 mls1 agg1 mb1) 1 [inv] rng0 =
      (none, [inv1], rng0') := by
    simp only [train] at h1
    split at h1
    · simp at h1
    · split at h1
      · simp at h1
      · split at h1
        · simp at h1
        · split at h1
          · simp at h1
          · exact h1
  rw [trainLoop_singleton] at hloop1
  have hto1 : (trainOne inv (TrainParams.mk md1 mls1 agg1 mb1) 1 rng0).1 = none := by
    have := congrArg Prod.fst hloop1
    simpa using this
  have hinv1 : (trainOne inv (TrainParams.mk md1 mls1 agg1 mb1) 1 rng0).2.1 = inv1 := by
    have := congrArg (fun p => p.2.1) hloop1
    simpa using this
  have hts1' : (trainSens
      { inv with train_params := some (TrainParams.mk md1 mls1 agg1 mb1) }
      (TrainParams.mk md1 mls1 agg1 mb1) 1 inv.sens_features rng0).1 = none := hto1
  have hmet : ∀ s ∈ inv.sens_features, (alookup inv.metrics s).isSome :=
    trainSens_none_metrics inv.sens_features
      { inv with train_params := some (TrainParams.mk md1 mls1 agg1 mb1) }
      rng0 hts1'
  obtain ⟨inv1', hrun1, hp1, hm1, hs1, hts1, hfi1, he1, ho1, hh1, _⟩ :=
    trainOne_run inv (TrainParams.mk md1 mls1 agg1 mb1) rng0 hmet
  have hinv1' : inv1' = inv1 := by
    rw [hrun1] at hinv1
    simpa using hinv1
  subst hinv1'
  have hmet1 : ∀ s ∈ inv1'.sens_features, (alookup inv1'.metrics s).isSome := by
    rw [hs1, hm1]
    exact hmet
  obtain ⟨inv2, hrun2, hp2, hm2, hs2, hts2, hfi2, he2, ho2, hh2, hmem2⟩ :=
    trainOne_run inv1' (TrainParams.mk md2 mls2 agg2 mb2) rng hmet1
  refine ⟨inv2, ?_, hp2, ?_⟩
  · simp only [train]
    rw [if_neg hmd, if_neg hmls, if_neg (by simpa using hagg), if_neg hmb,
      trainLoop_singleton, hrun2]
  · intro s hs
    rw [hmem2 s (hs1 ▸ hs)]
    rw [treeOf_eq_of_fields hm1 hts1 hfi1 he1 ho1 hh1]

/-- Witness for C6: `invA` is trained once, then re-trained with different
valid parameters. -/
theorem c6_witness :
    ∃ inv2, train [invATrained] 3 50 "max" 4 1 11 = (none, [inv2], 11) ∧
      inv2.train_params = some (TrainParams.mk 3 50 "max" 4) ∧
      ∀ s ∈ invA.sens_features,
        alookup inv2.trained_trees s =
          some (treeOf invA (TrainParams.mk 3 50 "max" 4) 11 s) :=
  c6_retraining_overwrites invA invATrained 5 100 "avg" 10 3 50 "max" 4
    (pySeed 7) (pySeed 7) 11 (by decide) (by decide) (by decide) (by decide)
    (by decide)

/-- The phase check of `report` passes when every investigation has
statistics. -/
theorem statsCheck_none_of_all {invs : List Investigation}
    (h : ∀ inv ∈ invs, inv.stats ≠ []) : statsCheck invs = none := by
  induction invs with
  | nil => rfl
  | cons a rest ih =>
    simp only [statsCheck]
    rw [if_neg (h a (List.mem_cons_self a rest))]
    exact ih (fun inv hm => h inv (List.mem_cons_of_mem _ hm))

/-- C9: when the first investigation passed to `report` has exactly one
protected feature, `report` returns right after emitting that
investigation's report: the emitted events are exactly the first
investigation's information line and its single bug report, the report
text is returned, and every later investigation is left untouched and
unreported. -/
theorem c9_single_feature_early_return (inv0 : Investigation)
    (rest : List Investigation) (dataname : String) (dirs : List String)
    (fc : Rat) (nf : String) (hfc0 : 0 ≤ fc) (hfc1 : fc < 1)
    (hnf : nf ∈ NODE_FILTERS) (hstats : ∀ inv ∈ inv0 :: rest, inv.stats ≠ [])
    (s : String) (hsens : inv0.sens_features = [s]) (st : StatRecord)
    (hst : alookup inv0.stats s = some st) (ctx : ContextSet)
    (hctx : alookup inv0.contexts s = some ctx) :
    report (inv0 :: rest) dataname none dirs fc nf =
      (none,
       { inv0 with display_params := some (DisplayParams.mk nf) } :: rest,
       [REvent.info 0, REvent.bug 0 s],
       some (bug_report ctx st s)) := by
  simp only [report]
  rw [if_neg (by simp [hfc0, hfc1]), if_neg (by simpa using hnf),
    statsCheck_none_of_all hstats]
  simp only [reportInvLoop]
  generalize hI : ({ inv0 with display_params := some (DisplayParams.mk nf) } :
    Investigation) = inv1'
  have hst1 : alookup inv1'.stats s = some st := by rw [← hI]; exact hst
  have hctx1 : alookup inv1'.contexts s = some ctx := by rw [← hI]; exact hctx
  have hsens1 : inv1'.sens_features = [s] := by rw [← hI]; exact hsens
  rw [hsens]
  have hloop : reportSensLoop inv1' 0 [s] =
      (none, [REvent.bug 0 s], some (bug_report ctx st s)) := by
    simp only [reportSensLoop, hst1, hctx1, hsens1]
    simp
  rw [hloop]

/-- Witness for C9: reporting on two tested single-feature investigations
emits only the first one's report and returns its text. -/
theorem c9_witness :
    report [invR, invR] "d" none [] 0 "all" =
      (none,
       { invR with display_params := some (DisplayParams.mk "all") } :: [invR],
       [REvent.info 0, REvent.bug 0 "g"],
       some (bug_report ctx0 st0 "g")) :=
  c9_single_feature_early_return invR [invR] "d" [] 0 "all" (by norm_num)
    (by norm_num) (by decide) (by decide) "g" rfl st0 rfl ctx0 rfl

/-- C5: determinism across runs.  Two executions of the construct → train
→ test pipeline on the same data source, parameters and `random_state`
produce identical outcomes — the same exception (if any), the same
investigations with their trained trees, contexts and statistics, and the
same holdout pool — whatever the ambient states of the python and numpy
generators were before each run, because `Investigation.__init__` executes
`random.seed(random_state)` and `test` executes
`np.random.seed(random_state)` before any randomness is consumed. -/
theorem c5_pipeline_deterministic (ds : DataSource) (prot out expl : List String)
    (mets : Option (List (String × Metric))) (rs : Option Nat)
    (td : Option (List String)) (md mls : Int) (agg : String) (mb : Int)
    (sf : Rat) (prune exact correct : Bool) (pool : List Int)
    (pyA npA pyB npB : Nat) :
    pipeline ds prot out expl mets rs td md mls agg mb sf prune exact correct
      pool pyA npA =
    pipeline ds prot out expl mets rs td md mls agg mb sf prune exact correct
      pool pyB npB := by
  unfold pipeline
  cases hinit : investigation_init ds prot out expl mets rs td with
  | error e => rfl
  | ok inv =>
    dsimp only
    rcases htr : train [inv] md mls agg mb sf (pySeed inv.random_state)
      with ⟨err, invs1, rngx⟩
    cases err with
    | some e => rfl
    | none => rfl

end FairTest
